import Mathlib

/-!
Verification of the opentui web session core against its specification.

The definitions below are a shallow embedding of the TypeScript sources:
  * `packages/web/src/shared/span-differ.ts` (spansEqual, linesEqual, diffLines, applyDiff)
  * `packages/web/src/server/session.ts` (createSession: tick, handleMessage, destroy)
  * the websocket connection handler (pending-message FIFO)
  * `packages/web/src/client/multiplexer.ts` (MultiplexerConnection)

JavaScript arrays are embedded as `List`, out-of-range reads (`xs[i]` yielding
`undefined`) as `Option` via `List.get?`, and JS array writes past the end
(which create holes reading as `undefined`) as lists of `Option` entries.
-/

namespace Opentui

/-- A styled span: a run of characters sharing visual attributes
(`VTermSpan` in the source). -/
structure VTermSpan where
  text : String
  fg : Option String
  bg : Option String
  flags : Nat
  width : Nat
deriving DecidableEq, Repr

/-- A terminal line: an ordered list of spans (`VTermLine`). -/
structure VTermLine where
  spans : List VTermSpan
deriving DecidableEq, Repr

/-- A changed-line record (`LineDiff` in `shared/types.ts`). -/
structure LineDiff where
  index : Nat
  line : VTermLine
deriving DecidableEq, Repr

/-- `spansEqual` from span-differ.ts: field-wise comparison of two spans. -/
def spansEqual (a b : VTermSpan) : Bool :=
  a.text == b.text && a.fg == b.fg && a.bg == b.bg && a.flags == b.flags && a.width == b.width

/-- The loop body of `linesEqual`: same span count and pairwise `spansEqual`. -/
def spanListsEqual (a b : List VTermSpan) : Bool :=
  a.length == b.length && (a.zip b).all fun p => spansEqual p.1 p.2

/-- `linesEqual` from span-differ.ts.  The source receives possibly-`undefined`
lines (`a[i]` past the end); `if (!a || !b) return a === b` makes two absent
lines equal and an absent line unequal to a present one. -/
def linesEqual : Option VTermLine → Option VTermLine → Bool
  | some a, some b => spanListsEqual a.spans b.spans
  | none, none => true
  | _, _ => false

/-- `diffLines` from span-differ.ts: for each index below
`max prev.length next.length`, emit `{index, next[i] || {spans: []}}`
whenever the two lines are not `linesEqual`. -/
def diffLines (prev next : List VTermLine) : List LineDiff :=
  (List.range (max prev.length next.length)).filterMap fun i =>
    if linesEqual (prev.get? i) (next.get? i) then none
    else some ⟨i, (next.get? i).getD ⟨[]⟩⟩

/-- JS array write `result[index] = line`: in-range writes replace, writes past
the end extend the array, filling the gap with holes (`undefined`, here
`none`). -/
def setExtend (l : List (Option VTermLine)) (i : Nat) (v : VTermLine) :
    List (Option VTermLine) :=
  if i < l.length then l.set i (some v)
  else l ++ List.replicate (i - l.length) none ++ [some v]

/-- `applyDiff` from span-differ.ts: copy `lines`, then `result[index] = line`
for each change. -/
def applyDiff (lines : List VTermLine) (changes : List LineDiff) :
    List (Option VTermLine) :=
  changes.foldl (fun r c => setExtend r c.index c.line) (lines.map some)

/-- Structural equality of an `applyDiff` result with a line list, in the sense
of the round-trip law: same length and pairwise `linesEqual`. -/
def linesListEqual (r : List (Option VTermLine)) (n : List VTermLine) : Bool :=
  r.length == n.length && (r.zip (n.map some)).all fun p => linesEqual p.1 p.2

/-! ### Basic facts about the differ -/

theorem spansEqual_iff (a b : VTermSpan) : spansEqual a b = true ↔ a = b := by
  cases a; cases b
  simp [spansEqual, VTermSpan.mk.injEq, and_assoc]

theorem spanListsEqual_iff (a b : List VTermSpan) :
    spanListsEqual a b = true ↔ a = b := by
  induction a generalizing b with
  | nil => cases b <;> simp [spanListsEqual]
  | cons x xs ih =>
    cases b with
    | nil => simp [spanListsEqual]
    | cons y ys =>
      have h := ih ys
      simp only [spanListsEqual, List.zip_cons_cons, List.all_cons, List.length_cons,
        Bool.and_eq_true, beq_iff_eq, spansEqual_iff, add_left_inj,
        List.cons.injEq] at h ⊢
      constructor
      · rintro ⟨hlen, hxy, hall⟩
        exact ⟨hxy, h.1 ⟨hlen, hall⟩⟩
      · rintro ⟨rfl, rfl⟩
        exact ⟨rfl, rfl, (h.2 rfl).2⟩

theorem linesEqual_iff (a b : Option VTermLine) : linesEqual a b = true ↔ a = b := by
  cases a with
  | none => cases b <;> simp [linesEqual]
  | some la =>
    cases b with
    | none => simp [linesEqual]
    | some lb =>
      cases la; cases lb
      simp [linesEqual, spanListsEqual_iff]

theorem linesEqual_refl (a : Option VTermLine) : linesEqual a a = true :=
  (linesEqual_iff a a).2 rfl

/-- Shift a change record one row down (proof infrastructure for peeling the
head row off `diffLines`). -/
def shiftDiff (c : LineDiff) : LineDiff := ⟨c.index + 1, c.line⟩

theorem applyDiff_def (l : List VTermLine) (cs : List LineDiff) :
    applyDiff l cs = cs.foldl (fun r c => setExtend r c.index c.line) (l.map some) := rfl

theorem diffLines_cons_cons (a b : VTermLine) (p n : List VTermLine) :
    diffLines (a :: p) (b :: n) =
      (if linesEqual (some a) (some b) then [] else [⟨0, b⟩]) ++
        (diffLines p n).map shiftDiff := by
  unfold diffLines
  rw [List.length_cons, List.length_cons, Nat.succ_max_succ, List.range_succ_eq_map,
    List.filterMap_cons, List.filterMap_map]
  have hcomp :
      ∀ i : Nat,
        ((fun i =>
            if linesEqual ((a :: p).get? i) ((b :: n).get? i) then none
            else some (⟨i, ((b :: n).get? i).getD ⟨[]⟩⟩ : LineDiff)) ∘ Nat.succ) i =
          Option.map shiftDiff
            (if linesEqual (p.get? i) (n.get? i) then none
             else some (⟨i, (n.get? i).getD ⟨[]⟩⟩ : LineDiff)) := by
    intro i
    simp only [Function.comp_apply, List.get?_cons_succ]
    split <;> simp [shiftDiff]
  rw [List.filterMap_congr (fun i _ => hcomp i)]
  rw [← List.map_filterMap]
  by_cases hab : linesEqual (some a) (some b) = true <;>
    simp [hab]

theorem diffLines_nil_cons (b : VTermLine) (n : List VTermLine) :
    diffLines [] (b :: n) = ⟨0, b⟩ :: (diffLines [] n).map shiftDiff := by
  unfold diffLines
  rw [List.length_nil, List.length_cons, Nat.zero_max, Nat.zero_max,
    List.range_succ_eq_map, List.filterMap_cons, List.filterMap_map]
  have hcomp :
      ∀ i : Nat,
        ((fun i =>
            if linesEqual (([] : List VTermLine).get? i) ((b :: n).get? i) then none
            else some (⟨i, ((b :: n).get? i).getD ⟨[]⟩⟩ : LineDiff)) ∘ Nat.succ) i =
          Option.map shiftDiff
            (if linesEqual (([] : List VTermLine).get? i) (n.get? i) then none
             else some (⟨i, (n.get? i).getD ⟨[]⟩⟩ : LineDiff)) := by
    intro i
    simp only [Function.comp_apply, List.get?_cons_succ, List.get?_nil]
    split <;> simp [shiftDiff]
  rw [List.filterMap_congr (fun i _ => hcomp i)]
  rw [← List.map_filterMap]
  simp [linesEqual]

theorem setExtend_cons_succ (h : Option VTermLine) (t : List (Option VTermLine))
    (i : Nat) (v : VTermLine) :
    setExtend (h :: t) (i + 1) v = h :: setExtend t i v := by
  simp only [setExtend, List.length_cons, Nat.add_lt_add_iff_right, Nat.succ_sub_succ]
  split <;> simp [List.set_cons_succ]

theorem foldl_setExtend_shift (cs : List LineDiff) (h : Option VTermLine)
    (t : List (Option VTermLine)) :
    (cs.map shiftDiff).foldl (fun r c => setExtend r c.index c.line) (h :: t) =
      h :: cs.foldl (fun r c => setExtend r c.index c.line) t := by
  induction cs generalizing t with
  | nil => rfl
  | cons c cs ih =>
    simp only [List.map_cons, List.foldl_cons, shiftDiff, setExtend_cons_succ]
    exact ih _

theorem applyDiff_diffLines (prev next : List VTermLine)
    (h : prev.length ≤ next.length) :
    applyDiff prev (diffLines prev next) = next.map some := by
  induction prev generalizing next with
  | nil =>
    clear h
    induction next with
    | nil => rfl
    | cons b n ihn =>
      rw [diffLines_nil_cons, applyDiff_def]
      simp only [List.map_nil, List.foldl_cons]
      have h0 : setExtend [] 0 b = [some b] := by simp [setExtend]
      rw [h0]
      rw [foldl_setExtend_shift]
      have hn := ihn
      rw [applyDiff_def] at hn
      simp only [List.map_nil] at hn
      rw [hn, List.map_cons]
  | cons a p ih =>
    cases next with
    | nil => simp at h
    | cons b n =>
      have hpn : p.length ≤ n.length := by simpa using h
      rw [diffLines_cons_cons]
      by_cases hab : linesEqual (some a) (some b) = true
      · have hab' : a = b := by
          have h2 := (linesEqual_iff (some a) (some b)).1 hab
          exact Option.some.inj h2
        rw [if_pos hab, List.nil_append, applyDiff_def, List.map_cons]
        rw [foldl_setExtend_shift, ← applyDiff_def, ih n hpn]
        rw [hab', List.map_cons]
      · rw [if_neg hab, List.cons_append, List.nil_append, applyDiff_def, List.map_cons,
          List.foldl_cons]
        have h0 : setExtend (some a :: p.map some) 0 b = some b :: p.map some := by
          simp [setExtend]
        rw [h0, foldl_setExtend_shift, ← applyDiff_def, ih n hpn, List.map_cons]

theorem linesListEqual_map_some (n : List VTermLine) :
    linesListEqual (n.map some) n = true := by
  induction n with
  | nil => rfl
  | cons b l ih =>
    simp only [linesListEqual, List.map_cons, List.zip_cons_cons, List.all_cons,
      List.length_cons, Bool.and_eq_true, beq_iff_eq, add_left_inj] at ih ⊢
    exact ⟨by simp, linesEqual_refl _, ih.2⟩

/-- C1 (counterexample): the round-trip law fails as stated.  With
`prev = [{spans: []}]` and `next = []`, `diffLines` emits a change at index 0
with the empty line, and `applyDiff` produces a one-element list, which is not
structurally equal to the empty `next` (the lengths differ). -/
theorem diff_roundTrip_counterexample :
    linesListEqual
      (applyDiff [VTermLine.mk []] (diffLines [VTermLine.mk []] [])) [] = false := by
  decide

/-- C1 (amended): whenever `next` is at least as long as `prev`,
`applyDiff (prev, diffLines (prev, next))` is structurally equal to `next`
(same length, pairwise `linesEqual`). -/
theorem diff_roundTrip_of_length_le (prev next : List VTermLine)
    (h : prev.length ≤ next.length) :
    linesListEqual (applyDiff prev (diffLines prev next)) next = true := by
  rw [applyDiff_diffLines prev next h]
  exact linesListEqual_map_some next

/-- Witness for `diff_roundTrip_of_length_le` at a concrete input. -/
theorem diff_roundTrip_of_length_le_witness :
    ([VTermLine.mk [⟨"hi", none, none, 0, 2⟩]] : List VTermLine).length ≤
        ([⟨[]⟩, ⟨[⟨"hi", none, none, 0, 2⟩]⟩] : List VTermLine).length ∧
      linesListEqual
        (applyDiff [VTermLine.mk [⟨"hi", none, none, 0, 2⟩]]
          (diffLines [VTermLine.mk [⟨"hi", none, none, 0, 2⟩]]
            [⟨[]⟩, ⟨[⟨"hi", none, none, 0, 2⟩]⟩]))
        [⟨[]⟩, ⟨[⟨"hi", none, none, 0, 2⟩]⟩] = true :=
  ⟨by decide, diff_roundTrip_of_length_le _ _ (by decide)⟩

/-- C2: `diffLines a b = []` iff `a` and `b` are structurally equal: same
length and, at every index, `linesEqual` (same span count, pairwise-equal
text/fg/bg/flags/width). -/
theorem diffLines_eq_nil_iff (a b : List VTermLine) :
    diffLines a b = [] ↔
      a.length = b.length ∧ ∀ i, linesEqual (a.get? i) (b.get? i) = true := by
  have hstep : diffLines a b = [] ↔
      ∀ i < max a.length b.length, linesEqual (a.get? i) (b.get? i) = true := by
    simp only [diffLines, List.filterMap_eq_nil_iff, List.mem_range]
    constructor
    · intro H i hi
      have h1 := H i hi
      by_contra hne
      rw [if_neg hne] at h1
      exact Option.noConfusion h1
    · intro H i hi
      rw [if_pos (H i hi)]
  rw [hstep]
  constructor
  · intro H
    have hlen : a.length = b.length := by
      by_contra hne
      rcases Nat.lt_or_ge a.length b.length with hlt | hge
      · have h1 : a.get? a.length = none := List.get?_eq_none.2 (Nat.le_refl _)
        have h2 := H a.length (by omega)
        rw [h1] at h2
        cases hb : b.get? a.length with
        | none => exact absurd (List.get?_eq_none.1 hb) (by omega)
        | some lb => rw [hb] at h2; simp [linesEqual] at h2
      · have hgt : b.length < a.length := by omega
        have h1 : b.get? b.length = none := List.get?_eq_none.2 (Nat.le_refl _)
        have h2 := H b.length (by omega)
        rw [h1] at h2
        cases ha : a.get? b.length with
        | none => exact absurd (List.get?_eq_none.1 ha) (by omega)
        | some la => rw [ha] at h2; simp [linesEqual] at h2
    refine ⟨hlen, fun i => ?_⟩
    by_cases hi : i < max a.length b.length
    · exact H i hi
    · have ha : a.get? i = none := List.get?_eq_none.2 (by omega)
      have hb : b.get? i = none := List.get?_eq_none.2 (by omega)
      rw [ha, hb]
      rfl
  · rintro ⟨hlen, H⟩ i hi
    exact H i

/-! ### Wire schema (`shared/types.ts`) -/

/-- Optional key modifiers; absent fields model absent JS properties. -/
structure Modifiers where
  shift : Option Bool
  ctrl : Option Bool
  meta : Option Bool
  super : Option Bool
  hyper : Option Bool
deriving DecidableEq, Repr

/-- Frame snapshot captured from the renderer (`VTermData` /
`captureSpans()`). -/
structure VTermData where
  cols : Nat
  rows : Nat
  cursor : Nat × Nat
  cursorVisible : Bool
  offset : Nat
  totalLines : Nat
  lines : List VTermLine
deriving DecidableEq, Repr

inductive MouseAction where
  | down
  | up
  | move
deriving DecidableEq, Repr

/-- Client → server messages.  Numeric fields are JS numbers; integers model
them (resize dimensions may be ≤ 0 on the wire). -/
inductive ClientMessage where
  | key (key : String) (modifiers : Option Modifiers)
  | mouse (action : MouseAction) (x y : Int) (button : Option Int)
  | scroll (x y : Int) (lines : Int)
  | resize (cols rows : Int)
  | ping
deriving DecidableEq, Repr

/-- Server → client messages. -/
inductive ServerMessage where
  | full (data : VTermData)
  | diff (changes : List LineDiff)
  | cursor (x y : Nat) (visible : Bool)
  | selection (anchorX anchorY focusX focusY : Int)
  | selectionClear
  | pong
  | error (message : String)
deriving DecidableEq, Repr

/-! ### Session core (`server/session.ts`, lazy-init variant) -/

inductive MouseButton where
  | LEFT
  | MIDDLE
  | RIGHT
deriving DecidableEq, Repr

inductive ScrollDirection where
  | up
  | down
deriving DecidableEq, Repr

/-- Calls the session makes into the renderer façade (mockInput / mockMouse /
renderer methods), recorded as effects. -/
inductive RendererCall where
  | createRenderer (width height : Int)
  | setCursorPosition (x y : Int) (visible : Bool)
  | pressKey (key : String) (modifiers : Option Modifiers)
  | pressDown (x y : Int) (button : MouseButton)
  | release (x y : Int) (button : MouseButton)
  | moveTo (x y : Int)
  | scroll (x y : Int) (direction : ScrollDirection)
  | resize (cols rows : Int)
deriving DecidableEq, Repr

/-- `browserKeyMap` from session.ts. -/
def browserKeyMap (k : String) : Option String :=
  if k = "ArrowUp" then some "ARROW_UP"
  else if k = "ArrowDown" then some "ARROW_DOWN"
  else if k = "ArrowLeft" then some "ARROW_LEFT"
  else if k = "ArrowRight" then some "ARROW_RIGHT"
  else if k = "Enter" then some "RETURN"
  else if k = "Backspace" then some "BACKSPACE"
  else if k = "Tab" then some "TAB"
  else if k = "Escape" then some "ESCAPE"
  else if k = "Delete" then some "DELETE"
  else if k = "Home" then some "HOME"
  else if k = "End" then some "END"
  else if k = "PageUp" then some "PAGEUP"
  else if k = "PageDown" then some "PAGEDOWN"
  else if k = "Insert" then some "INSERT"
  else if k = "F1" then some "F1"
  else if k = "F2" then some "F2"
  else if k = "F3" then some "F3"
  else if k = "F4" then some "F4"
  else if k = "F5" then some "F5"
  else if k = "F6" then some "F6"
  else if k = "F7" then some "F7"
  else if k = "F8" then some "F8"
  else if k = "F9" then some "F9"
  else if k = "F10" then some "F10"
  else if k = "F11" then some "F11"
  else if k = "F12" then some "F12"
  else none

/-- Last emitted cursor state. -/
structure Cursor where
  x : Nat
  y : Nat
  visible : Bool
deriving DecidableEq, Repr

/-- The mutable locals of `createSession`.  `hasRenderer` models
`testRenderer !== null`; the three counters record how many times the user
cleanup callback, `clearInterval`, and `renderer.destroy()` have run. -/
structure SessionState where
  initialized : Bool
  hasRenderer : Bool
  currentCols : Int
  currentRows : Int
  lastLines : List VTermLine
  lastCursor : Option Cursor
  rendering : Bool
  pendingRender : Bool
  timerActive : Bool
  destroyed : Bool
  cleanupSet : Bool
  cleanupRuns : Nat
  timerClears : Nat
  rendererDestroys : Nat
deriving DecidableEq, Repr

/-- State of a freshly created session (`createSession` locals before any
message). -/
def initialState : SessionState :=
  { initialized := false, hasRenderer := false, currentCols := 0, currentRows := 0,
    lastLines := [], lastCursor := none, rendering := false, pendingRender := false,
    timerActive := false, destroyed := false, cleanupSet := false,
    cleanupRuns := 0, timerClears := 0, rendererDestroys := 0 }

/-- The fixed options of `createSession`; `hasCleanup` records whether the
user's `onConnection` returns a cleanup callback. -/
structure SessionConfig where
  maxCols : Int
  maxRows : Int
  hasCleanup : Bool
deriving DecidableEq, Repr

/-- Defaults from session.ts: `maxCols = 200`, `maxRows = 60`. -/
def defaultConfig : SessionConfig :=
  { maxCols := 200, maxRows := 60, hasCleanup := false }

inductive TickStartResult where
  | noop (s : SessionState)
  | deferred (s : SessionState)
  | started (s : SessionState)
deriving DecidableEq, Repr

/-- `tick()` up to its only suspension point (`await renderOnce()`): the
destroyed/no-renderer early return, the single-flight check, and setting
`rendering`. -/
def tickStart (s : SessionState) : TickStartResult :=
  if s.destroyed || !s.hasRenderer then .noop s
  else if s.rendering then .deferred { s with pendingRender := true }
  else .started { s with rendering := true }

def cursorOf (frame : VTermData) : Cursor :=
  ⟨frame.cursor.1, frame.cursor.2, frame.cursorVisible⟩

/-- `tick()` after the await, given the frame `captureSpans()` returns: the
first-frame `full` short-circuit; otherwise the diff with the
`changes.length > data.lines.length * 0.5` threshold (exactly
`2 * changes.length > lines.length` on integers) and the cursor-change
message; then the `finally` block resetting `rendering` (a pending re-tick is
a separate scheduled tick, not part of this step). -/
def tickFinish (s : SessionState) (frame : VTermData) :
    SessionState × List ServerMessage :=
  let cur := cursorOf frame
  if s.lastLines.length = 0 then
    ({ s with lastLines := frame.lines, lastCursor := some cur,
              rendering := false, pendingRender := false }, [.full frame])
  else
    let changes := diffLines s.lastLines frame.lines
    let step1 : SessionState × List ServerMessage :=
      if changes.length > 0 then
        if 2 * changes.length > frame.lines.length then
          ({ s with lastLines := frame.lines }, [ServerMessage.full frame])
        else
          ({ s with lastLines := frame.lines }, [ServerMessage.diff changes])
      else (s, [])
    let step2 : SessionState × List ServerMessage :=
      if step1.1.lastCursor ≠ some cur then
        ({ step1.1 with lastCursor := some cur },
          [ServerMessage.cursor cur.x cur.y cur.visible])
      else (step1.1, [])
    ({ step2.1 with rendering := false, pendingRender := false },
      step1.2 ++ step2.2)

/-- A whole tick running without interleaving. -/
def tickAtomic (s : SessionState) (frame : VTermData) :
    SessionState × List ServerMessage :=
  match tickStart s with
  | .noop s1 => (s1, [])
  | .deferred s1 => (s1, [])
  | .started s1 => tickFinish s1 frame

/-- `initSession(cols, rows)` run atomically: guard, renderer creation, cursor
hidden by default, `onConnection`, interval start, first tick. -/
def initSession (cfg : SessionConfig) (s : SessionState) (cols rows : Int)
    (frame : VTermData) :
    SessionState × List ServerMessage × List RendererCall :=
  if s.initialized || s.destroyed then (s, [], [])
  else
    let s1 := { s with initialized := true, currentCols := cols, currentRows := rows,
                       hasRenderer := true, cleanupSet := cfg.hasCleanup,
                       timerActive := true }
    let r := tickAtomic s1 frame
    (r.1, r.2, [.createRenderer cols rows, .setCursorPosition 0 0 false])

/-- `handleMessage` from session.ts.  `frame` is the snapshot the renderer
would deliver to a tick triggered while handling this message. -/
def handleMessage (cfg : SessionConfig) (s : SessionState) (msg : ClientMessage)
    (frame : VTermData) :
    SessionState × List ServerMessage × List RendererCall :=
  if s.destroyed then (s, [], [])
  else
    match msg with
    | .resize cols rows =>
      let newCols := min cols cfg.maxCols
      let newRows := min rows cfg.maxRows
      if !s.initialized then
        initSession cfg s newCols newRows frame
      else if s.hasRenderer then
        let s1 := { s with currentCols := newCols, currentRows := newRows,
                           lastLines := [] }
        let r := tickAtomic s1 frame
        (r.1, r.2, [.resize newCols newRows])
      else (s, [], [])
    | .ping => (s, [.pong], [])
    | .key k mods =>
      if !s.hasRenderer then (s, [], [])
      else
        let r := tickAtomic s frame
        (r.1, r.2, [.pressKey ((browserKeyMap k).getD k) mods])
    | .mouse action x y button =>
      if !s.hasRenderer then (s, [], [])
      else
        let btn := if button = some 0 then MouseButton.LEFT
                   else if button = some 2 then MouseButton.RIGHT
                   else MouseButton.MIDDLE
        let call := match action with
          | .down => RendererCall.pressDown x y btn
          | .up => RendererCall.release x y btn
          | .move => RendererCall.moveTo x y
        let r := tickAtomic s frame
        (r.1, r.2, [call])
    | .scroll x y lines =>
      if !s.hasRenderer then (s, [], [])
      else
        let direction := if lines > 0 then ScrollDirection.down
                         else ScrollDirection.up
        let count := min lines.natAbs 50
        let r := tickAtomic s frame
        (r.1, r.2, List.replicate count (.scroll x y direction))

/-- `destroy()` from session.ts: idempotence guard, clear the interval, run the
user cleanup, destroy the renderer.  It emits no messages. -/
def destroy (s : SessionState) : SessionState :=
  if s.destroyed then s
  else
    let s1 := { s with destroyed := true }
    let s2 := if s1.timerActive then
        { s1 with timerActive := false, timerClears := s1.timerClears + 1 }
      else s1
    let s3 := if s2.cleanupSet then { s2 with cleanupRuns := s2.cleanupRuns + 1 }
      else s2
    if s3.hasRenderer then { s3 with rendererDestroys := s3.rendererDestroys + 1 }
    else s3

/-! ### Session traces -/

/-- External stimuli of one session.  Each tick-triggering event carries the
frame the renderer would produce for it. -/
inductive Event where
  | timerTick (frame : VTermData)
  | clientMsg (m : ClientMessage) (frame : VTermData)
  | destroySession
deriving DecidableEq, Repr

/-- One event processed atomically, with the server→client messages it emits. -/
def step (cfg : SessionConfig) (s : SessionState) (e : Event) :
    SessionState × List ServerMessage :=
  match e with
  | .timerTick frame => if s.timerActive then tickAtomic s frame else (s, [])
  | .clientMsg m frame =>
    let r := handleMessage cfg s m frame
    (r.1, r.2.1)
  | .destroySession => (destroy s, [])

/-- Process a list of events, concatenating their outputs. -/
def run (cfg : SessionConfig) (s : SessionState) (es : List Event) :
    SessionState × List ServerMessage :=
  match es with
  | [] => (s, [])
  | e :: rest =>
    let r1 := step cfg s e
    let r2 := run cfg r1.1 rest
    (r2.1, r1.2 ++ r2.2)

/-- `full` and `diff` are the frame-bearing messages. -/
def isFrameBearing : ServerMessage → Bool
  | .full _ => true
  | .diff _ => true
  | _ => false

def isError : ServerMessage → Bool
  | .error _ => true
  | _ => false

/-- A minimal one-line frame snapshot, used as concrete renderer output. -/
def emptyFrame : VTermData :=
  { cols := 1, rows := 1, cursor := (1, 1), cursorVisible := false,
    offset := 0, totalLines := 1, lines := [⟨[]⟩] }

/-- A session that has completed lazy initialization. -/
def readyState : SessionState :=
  { initialState with initialized := true, hasRenderer := true, timerActive := true }

/-! ### Claim C5: ping/pong purity -/

/-- C5: a session that handles a `ping` (destroyed sessions drop every
message) emits exactly one `pong`, makes no renderer call, and leaves every
piece of session state unchanged. -/
theorem ping_pong_pure (cfg : SessionConfig) (s : SessionState) (frame : VTermData)
    (h : s.destroyed = false) :
    handleMessage cfg s ClientMessage.ping frame = (s, [ServerMessage.pong], []) := by
  simp [handleMessage, h]

/-- Witness for `ping_pong_pure` on a fresh session. -/
theorem ping_pong_pure_witness :
    initialState.destroyed = false ∧
      handleMessage defaultConfig initialState ClientMessage.ping emptyFrame =
        (initialState, [ServerMessage.pong], []) :=
  ⟨rfl, ping_pong_pure defaultConfig initialState emptyFrame rfl⟩

/-! ### Claim C10: mouse-button defaulting -/

/-- C10: for `mouse` messages handled by an initialized session, the injected
button is LEFT iff `button == 0`, RIGHT iff `button == 2`, and MIDDLE for any
other value including an absent field; for action `move` the button field is
ignored and only `moveTo` is called. -/
theorem mouse_button_defaulting (cfg : SessionConfig) (s : SessionState)
    (x y : Int) (b : Option Int) (frame : VTermData)
    (hd : s.destroyed = false) (hr : s.hasRenderer = true) :
    (handleMessage cfg s (ClientMessage.mouse MouseAction.down x y b) frame).2.2 =
        [RendererCall.pressDown x y
          (if b = some 0 then MouseButton.LEFT
           else if b = some 2 then MouseButton.RIGHT else MouseButton.MIDDLE)] ∧
    (handleMessage cfg s (ClientMessage.mouse MouseAction.up x y b) frame).2.2 =
        [RendererCall.release x y
          (if b = some 0 then MouseButton.LEFT
           else if b = some 2 then MouseButton.RIGHT else MouseButton.MIDDLE)] ∧
    (handleMessage cfg s (ClientMessage.mouse MouseAction.move x y b) frame).2.2 =
        [RendererCall.moveTo x y] := by
  refine ⟨?_, ?_, ?_⟩ <;> simp [handleMessage, hd, hr]

/-- Witness for `mouse_button_defaulting`: an absent button maps to MIDDLE. -/
theorem mouse_button_defaulting_witness :
    readyState.destroyed = false ∧ readyState.hasRenderer = true ∧
      (handleMessage defaultConfig readyState
          (ClientMessage.mouse MouseAction.down 3 4 none) emptyFrame).2.2 =
        [RendererCall.pressDown 3 4 MouseButton.MIDDLE] :=
  ⟨rfl, rfl, by
    have h := (mouse_button_defaulting defaultConfig readyState 3 4 none emptyFrame
      rfl rfl).1
    simpa using h⟩

/-! ### Claim C3: full/diff threshold on a tick -/

/-- A tick at which nothing changed: the previous frame equals the new one. -/
def quietState : SessionState :=
  { readyState with lastLines := [⟨[]⟩], lastCursor := some ⟨1, 1, false⟩ }

/-- C3 (counterexample): a tick that computes changes against a non-empty
`lastLines` and finds zero changed lines (0 ≤ 0.5 · |lines|) emits no message
at all — in particular no `diff` message — contradicting the claim that such a
tick emits a `diff` carrying the changed lines. -/
theorem tick_no_message_on_empty_diff :
    quietState.lastLines ≠ [] ∧
      2 * (diffLines quietState.lastLines emptyFrame.lines).length ≤
        emptyFrame.lines.length ∧
      (tickAtomic quietState emptyFrame).2 = [] := by
  refine ⟨by decide, by decide, by decide⟩

/-- C3 (amended): on a tick that computes changes against a non-empty
`lastLines`, if at least one line changed then the frame-bearing message is
`full` exactly when `changes.length > 0.5 * lines.length`
(i.e. `2·|changes| > |lines|`) and otherwise a `diff` carrying exactly the
changed lines; if no line changed, no frame-bearing message is emitted. -/
theorem tick_diff_threshold (s : SessionState) (frame : VTermData)
    (hd : s.destroyed = false) (hr : s.hasRenderer = true)
    (hren : s.rendering = false) (hlast : s.lastLines ≠ []) :
    (tickAtomic s frame).2.filter isFrameBearing =
      (if diffLines s.lastLines frame.lines = [] then []
       else if 2 * (diffLines s.lastLines frame.lines).length > frame.lines.length
         then [ServerMessage.full frame]
         else [ServerMessage.diff (diffLines s.lastLines frame.lines)]) := by
  have hstart : tickStart s = .started { s with rendering := true } := by
    simp [tickStart, hd, hr, hren]
  have hlen : ¬(({ s with rendering := true } : SessionState).lastLines.length = 0) :=
    fun h => hlast (List.length_eq_zero.mp h)
  simp only [tickAtomic, hstart, tickFinish, if_neg hlen]
  by_cases hc : diffLines s.lastLines frame.lines = []
  · simp only [hc, List.length_nil, gt_iff_lt, lt_self_iff_false, if_false, if_pos hc]
    split <;> simp [isFrameBearing]
  · have hpos : 0 < (diffLines s.lastLines frame.lines).length :=
      List.length_pos.2 hc
    simp only [gt_iff_lt, hpos, if_true, if_neg hc]
    by_cases hth : frame.lines.length < 2 * (diffLines s.lastLines frame.lines).length
    · simp only [if_pos hth]
      split <;> simp [isFrameBearing]
    · simp only [if_neg hth]
      split <;> simp [isFrameBearing]

/-- Witness for `tick_diff_threshold`: a one-line frame whose single line
changed escalates to `full` (1 change > 0.5 · 1 line). -/
theorem tick_diff_threshold_witness :
    quietState.destroyed = false ∧ quietState.hasRenderer = true ∧
      quietState.rendering = false ∧ quietState.lastLines ≠ [] ∧
      (tickAtomic quietState
          { emptyFrame with
              lines := [⟨[⟨"x", none, none, 0, 1⟩]⟩] }).2.filter isFrameBearing =
        (if diffLines quietState.lastLines
              ({ emptyFrame with
                  lines := [⟨[⟨"x", none, none, 0, 1⟩]⟩] } : VTermData).lines = [] then []
         else if 2 * (diffLines quietState.lastLines
              ({ emptyFrame with
                  lines := [⟨[⟨"x", none, none, 0, 1⟩]⟩] } : VTermData).lines).length >
              ({ emptyFrame with
                  lines := [⟨[⟨"x", none, none, 0, 1⟩]⟩] } : VTermData).lines.length
           then [ServerMessage.full
              { emptyFrame with lines := [⟨[⟨"x", none, none, 0, 1⟩]⟩] }]
           else [ServerMessage.diff (diffLines quietState.lastLines
              ({ emptyFrame with
                  lines := [⟨[⟨"x", none, none, 0, 1⟩]⟩] } : VTermData).lines)]) :=
  ⟨rfl, rfl, rfl, by decide,
    tick_diff_threshold quietState _ rfl rfl rfl (by decide)⟩

/-! ### Claim C4: the first frame-bearing message is `full` -/

theorem destroy_preserves (s : SessionState) :
    (destroy s).rendering = s.rendering ∧ (destroy s).lastLines = s.lastLines := by
  unfold destroy
  split
  · exact ⟨rfl, rfl⟩
  · dsimp only
    split <;> split <;> split <;> exact ⟨rfl, rfl⟩

theorem step_destroyed (cfg : SessionConfig) (s : SessionState) (e : Event)
    (h : s.destroyed = true) : step cfg s e = (s, []) := by
  cases e with
  | timerTick f => simp [step, tickAtomic, tickStart, h]
  | clientMsg m f => simp [step, handleMessage, h]
  | destroySession => simp [step, destroy, h]

theorem run_destroyed (cfg : SessionConfig) (es : List Event) :
    ∀ s : SessionState, s.destroyed = true → run cfg s es = (s, []) := by
  induction es with
  | nil => intro s _; rfl
  | cons e rest ih =>
    intro s h
    simp only [run, step_destroyed cfg s e h]
    simp [ih s h]

/-- A tick from a state with `lastLines = []` either does nothing (destroyed
or renderer missing) or emits exactly one `full` message. -/
theorem tickAtomic_from_clean (s : SessionState) (f : VTermData)
    (hren : s.rendering = false) (hl : s.lastLines = []) :
    tickAtomic s f = (s, []) ∨ (tickAtomic s f).2 = [ServerMessage.full f] := by
  cases hd : s.destroyed with
  | true => left; simp [tickAtomic, tickStart, hd]
  | false =>
    cases hr : s.hasRenderer with
    | false => left; simp [tickAtomic, tickStart, hd, hr]
    | true =>
      right
      have hlen : (({ s with rendering := true } : SessionState).lastLines.length = 0) := by
        simp [hl]
      simp [tickAtomic, tickStart, tickFinish, hd, hr, hren, hlen]

/-- The session state after a subsequent (post-init) resize, before its tick. -/
def resizedState (cfg : SessionConfig) (s : SessionState) (c r : Int) : SessionState :=
  { s with currentCols := min c cfg.maxCols, currentRows := min r cfg.maxRows, lastLines := [] }

/-- The session state `initSession` builds before its first tick. -/
def initializedState (cfg : SessionConfig) (s : SessionState) (c r : Int) : SessionState :=
  { s with initialized := true, currentCols := min c cfg.maxCols, currentRows := min r cfg.maxRows, hasRenderer := true, cleanupSet := cfg.hasCleanup, timerActive := true }

/-- Any single event processed from a state with no transmitted lines either
emits nothing (or a lone `pong`) and keeps the state clean, or emits exactly
one `full`. -/
theorem step_from_clean (cfg : SessionConfig) (s : SessionState) (e : Event)
    (hren : s.rendering = false) (hl : s.lastLines = []) :
    (((step cfg s e).2 = [] ∨ (step cfg s e).2 = [ServerMessage.pong]) ∧
        (step cfg s e).1.rendering = false ∧ (step cfg s e).1.lastLines = []) ∨
      ∃ d, (step cfg s e).2 = [ServerMessage.full d] := by
  cases e with
  | destroySession =>
    left
    refine ⟨Or.inl rfl, ?_, ?_⟩
    · rw [show (step cfg s .destroySession).1 = destroy s from rfl,
        (destroy_preserves s).1, hren]
    · rw [show (step cfg s .destroySession).1 = destroy s from rfl,
        (destroy_preserves s).2, hl]
  | timerTick f =>
    by_cases ht : s.timerActive = true
    · have hstep : step cfg s (.timerTick f) = tickAtomic s f := by simp [step, ht]
      rcases tickAtomic_from_clean s f hren hl with h | h
      · left; rw [hstep, h]; exact ⟨Or.inl rfl, hren, hl⟩
      · right; exact ⟨f, by rw [hstep]; exact h⟩
    · have hstep : step cfg s (.timerTick f) = (s, []) := by
        simp [step, Bool.eq_false_iff.2 ht]
      left; rw [hstep]; exact ⟨Or.inl rfl, hren, hl⟩
  | clientMsg m f =>
    by_cases hd : s.destroyed = true
    · have hstep : step cfg s (.clientMsg m f) = (s, []) := by
        simp [step, handleMessage, hd]
      left; rw [hstep]; exact ⟨Or.inl rfl, hren, hl⟩
    · replace hd : s.destroyed = false := by simpa using hd
      cases m with
      | ping =>
        have hstep : step cfg s (.clientMsg .ping f) = (s, [ServerMessage.pong]) := by
          simp [step, handleMessage, hd]
        left; rw [hstep]; exact ⟨Or.inr rfl, hren, hl⟩
      | key k mods =>
        by_cases hr : s.hasRenderer = true
        · have hstep : step cfg s (.clientMsg (.key k mods) f) = tickAtomic s f := by
            simp [step, handleMessage, hd, hr]
          rcases tickAtomic_from_clean s f hren hl with h | h
          · left; rw [hstep, h]; exact ⟨Or.inl rfl, hren, hl⟩
          · right; exact ⟨f, by rw [hstep]; exact h⟩
        · have hstep : step cfg s (.clientMsg (.key k mods) f) = (s, []) := by
            simp [step, handleMessage, hd, Bool.eq_false_iff.2 hr]
          left; rw [hstep]; exact ⟨Or.inl rfl, hren, hl⟩
      | mouse a x y b =>
        by_cases hr : s.hasRenderer = true
        · have hstep : step cfg s (.clientMsg (.mouse a x y b) f) = tickAtomic s f := by
            simp [step, handleMessage, hd, hr]
          rcases tickAtomic_from_clean s f hren hl with h | h
          · left; rw [hstep, h]; exact ⟨Or.inl rfl, hren, hl⟩
          · right; exact ⟨f, by rw [hstep]; exact h⟩
        · have hstep : step cfg s (.clientMsg (.mouse a x y b) f) = (s, []) := by
            simp [step, handleMessage, hd, Bool.eq_false_iff.2 hr]
          left; rw [hstep]; exact ⟨Or.inl rfl, hren, hl⟩
      | scroll x y lines =>
        by_cases hr : s.hasRenderer = true
        · have hstep : step cfg s (.clientMsg (.scroll x y lines) f) = tickAtomic s f := by
            simp [step, handleMessage, hd, hr]
          rcases tickAtomic_from_clean s f hren hl with h | h
          · left; rw [hstep, h]; exact ⟨Or.inl rfl, hren, hl⟩
          · right; exact ⟨f, by rw [hstep]; exact h⟩
        · have hstep : step cfg s (.clientMsg (.scroll x y lines) f) = (s, []) := by
            simp [step, handleMessage, hd, Bool.eq_false_iff.2 hr]
          left; rw [hstep]; exact ⟨Or.inl rfl, hren, hl⟩
      | resize c r =>
        by_cases hi : s.initialized = true
        · by_cases hr : s.hasRenderer = true
          · have hstep : step cfg s (.clientMsg (.resize c r) f) = tickAtomic (resizedState cfg s c r) f := by
              simp [step, handleMessage, resizedState, hd, hi, hr]
            rcases tickAtomic_from_clean (resizedState cfg s c r) f hren rfl with h | h
            · left; rw [hstep, h]; exact ⟨Or.inl rfl, hren, rfl⟩
            · right; exact ⟨f, by rw [hstep]; exact h⟩
          · have hstep : step cfg s (.clientMsg (.resize c r) f) = (s, []) := by
              simp [step, handleMessage, hd, hi, Bool.eq_false_iff.2 hr]
            left; rw [hstep]; exact ⟨Or.inl rfl, hren, hl⟩
        · replace hi : s.initialized = false := by simpa using hi
          have hstep : step cfg s (.clientMsg (.resize c r) f) = tickAtomic (initializedState cfg s c r) f := by
            simp [step, handleMessage, initSession, initializedState, hd, hi]
          rcases tickAtomic_from_clean (initializedState cfg s c r) f hren hl with h | h
          · left; rw [hstep, h]; exact ⟨Or.inl rfl, hren, hl⟩
          · right; exact ⟨f, by rw [hstep]; exact h⟩

/-- From a clean state (nothing transmitted yet, no tick in flight), the first
frame-bearing message any event sequence produces is a `full`. -/
theorem run_firstFrame_full (cfg : SessionConfig) :
    ∀ (es : List Event) (s : SessionState), s.rendering = false → s.lastLines = [] →
      ∀ m, (run cfg s es).2.find? isFrameBearing = some m →
        ∃ d, m = ServerMessage.full d := by
  intro es
  induction es with
  | nil =>
    intro s _ _ m hm
    simp [run] at hm
  | cons e rest ih =>
    intro s h1 h2 m hm
    simp only [run] at hm
    rcases step_from_clean cfg s e h1 h2 with ⟨hout, hs1, hs2⟩ | ⟨d, hout⟩
    · rcases hout with h | h
      · rw [h, List.nil_append] at hm
        exact ih _ hs1 hs2 m hm
      · rw [h, List.cons_append, List.find?_cons_of_neg _ (by simp [isFrameBearing]),
          List.nil_append] at hm
        exact ih _ hs1 hs2 m hm
    · rw [hout, List.cons_append,
        List.find?_cons_of_pos _ (by simp [isFrameBearing])] at hm
      exact ⟨d, (Option.some.inj hm).symm⟩

/-- C4: the first frame-bearing (`full`/`diff`) message a session emits after
session start is a `full`, and the first frame-bearing message emitted from
the point a `resize` message is processed onwards is a `full` (for any state
with no tick in flight, renderer present exactly when initialized, and nothing
transmitted before initialization). -/
theorem first_frame_bearing_is_full (cfg : SessionConfig) :
    (∀ (es : List Event) (m : ServerMessage),
        (run cfg initialState es).2.find? isFrameBearing = some m →
        ∃ d, m = ServerMessage.full d) ∧
    (∀ (s : SessionState) (cols rows : Int) (f : VTermData) (es : List Event)
        (m : ServerMessage),
        s.rendering = false → s.hasRenderer = s.initialized →
        (s.initialized = false → s.lastLines = []) →
        (run cfg s (Event.clientMsg (ClientMessage.resize cols rows) f :: es)).2.find?
            isFrameBearing = some m →
        ∃ d, m = ServerMessage.full d) := by
  constructor
  · intro es m hm
    exact run_firstFrame_full cfg es initialState rfl rfl m hm
  · intro s cols rows f es m h1 h2 h3 hm
    by_cases hd : s.destroyed = true
    · rw [run_destroyed cfg _ s hd] at hm
      simp at hm
    · replace hd : s.destroyed = false := by simpa using hd
      simp only [run] at hm
      by_cases hi : s.initialized = true
      · have hr : s.hasRenderer = true := by rw [h2, hi]
        have hstep : step cfg s (Event.clientMsg (.resize cols rows) f) =
            tickAtomic (resizedState cfg s cols rows) f := by
          simp [step, handleMessage, resizedState, hd, hi, hr]
        rcases tickAtomic_from_clean (resizedState cfg s cols rows) f h1 rfl with h | h
        · rw [hstep, h, List.nil_append] at hm
          exact run_firstFrame_full cfg es (resizedState cfg s cols rows) h1 rfl m hm
        · rw [hstep, h, List.cons_append,
            List.find?_cons_of_pos _ (by simp [isFrameBearing])] at hm
          exact ⟨f, (Option.some.inj hm).symm⟩
      · replace hi : s.initialized = false := by simpa using hi
        have hl : s.lastLines = [] := h3 hi
        have hstep : step cfg s (Event.clientMsg (.resize cols rows) f) =
            tickAtomic (initializedState cfg s cols rows) f := by
          simp [step, handleMessage, initSession, initializedState, hd, hi]
        rcases tickAtomic_from_clean (initializedState cfg s cols rows) f h1 hl with h | h
        · rw [hstep, h, List.nil_append] at hm
          exact run_firstFrame_full cfg es (initializedState cfg s cols rows) h1 hl m hm
        · rw [hstep, h, List.cons_append,
            List.find?_cons_of_pos _ (by simp [isFrameBearing])] at hm
          exact ⟨f, (Option.some.inj hm).symm⟩

/-- Witness for `first_frame_bearing_is_full`: a fresh session that receives
one `resize` emits `full emptyFrame` as its first frame-bearing message. -/
theorem first_frame_bearing_is_full_witness :
    ∃ d, ServerMessage.full emptyFrame = ServerMessage.full d :=
  (first_frame_bearing_is_full defaultConfig).2 initialState 80 24 emptyFrame []
    (ServerMessage.full emptyFrame) rfl rfl (fun _ => rfl) (by decide)

/-! ### Claim C6: destroy silence for an in-flight tick -/

/-- A session mid-way through a healthy life: initialized, renderer present,
render interval running, user cleanup registered. -/
def inflightBase : SessionState :=
  { readyState with cleanupSet := true }

/-- C6: evaluation at the failing interleaving.  A tick passes its
`destroyed` check and suspends at `await renderOnce()`
(`tickStart` returns `started`); `destroy()` then runs to completion; when the
tick resumes it never re-reads the `destroyed` flag and still emits a `full`
message — so a message is emitted after `destroy()` returned, contradicting
the claimed silence (the idempotence half of the claim does hold: a second
`destroy` is a no-op). -/
theorem destroy_inflight_tick_emits :
    tickStart inflightBase = TickStartResult.started { inflightBase with rendering := true } ∧
      (destroy { inflightBase with rendering := true }).destroyed = true ∧
      (tickFinish (destroy { inflightBase with rendering := true }) emptyFrame).2 =
        [ServerMessage.full emptyFrame] ∧
      destroy (destroy { inflightBase with rendering := true }) =
        destroy { inflightBase with rendering := true } := by
  refine ⟨by decide, by decide, by decide, by decide⟩

/-! ### Claim C7: no invalid-size rejection at session creation -/

/-- C7 (counterexample): session creation never rejects dimensions.  A first
`resize` with `cols = rows = 0` initializes the session (state `initialized`,
`currentCols = 0`) and emits no `error`; a first resize of `500 × 300` is
silently clamped to the maxima `200 × 60` rather than rejected. -/
theorem invalid_size_accepted :
    (handleMessage defaultConfig initialState (ClientMessage.resize 0 0)
        emptyFrame).1.initialized = true ∧
      (handleMessage defaultConfig initialState (ClientMessage.resize 0 0)
          emptyFrame).1.currentCols = 0 ∧
      (handleMessage defaultConfig initialState (ClientMessage.resize 0 0)
          emptyFrame).2.1.all (fun m => !isError m) = true ∧
      (handleMessage defaultConfig initialState (ClientMessage.resize 500 300)
          emptyFrame).1.currentCols = 200 ∧
      (handleMessage defaultConfig initialState (ClientMessage.resize 500 300)
          emptyFrame).1.currentRows = 60 := by
  refine ⟨by decide, by decide, by decide, by decide, by decide⟩

theorem tickFinish_no_error (s : SessionState) (f : VTermData) :
    ((tickFinish s f).2.all fun m => !isError m) = true := by
  unfold tickFinish
  dsimp only
  repeat' split
  all_goals simp [isError]

theorem tickAtomic_no_error (s : SessionState) (f : VTermData) :
    ((tickAtomic s f).2.all fun m => !isError m) = true := by
  unfold tickAtomic
  cases tickStart s with
  | noop s1 => rfl
  | deferred s1 => rfl
  | started s1 => exact tickFinish_no_error s1 f

theorem tickAtomic_preserves (s : SessionState) (f : VTermData) :
    (tickAtomic s f).1.initialized = s.initialized ∧
      (tickAtomic s f).1.currentCols = s.currentCols ∧
      (tickAtomic s f).1.currentRows = s.currentRows := by
  by_cases h1 : (s.destroyed || !s.hasRenderer) = true
  · simp [tickAtomic, tickStart, h1]
  · by_cases h2 : s.rendering = true
    · simp [tickAtomic, tickStart, h1, h2]
    · have hstart : tickStart s = .started { s with rendering := true } := by
        simp [tickStart, h1, h2]
      simp only [tickAtomic, hstart]
      unfold tickFinish
      dsimp only
      repeat' split
      all_goals exact ⟨rfl, rfl, rfl⟩

/-- C7 (amended): creation takes no dimensions; the first `resize` always
initializes the session, clamping each dimension from above by
`maxCols`/`maxRows` (`Math.min`) and accepting values ≤ 0 unchanged; no
invalid-size error is ever emitted. -/
theorem first_resize_clamps_never_rejects (cfg : SessionConfig) (s : SessionState)
    (cols rows : Int) (frame : VTermData)
    (hd : s.destroyed = false) (hi : s.initialized = false) :
    (handleMessage cfg s (ClientMessage.resize cols rows) frame).1.initialized = true ∧
      (handleMessage cfg s (ClientMessage.resize cols rows) frame).1.currentCols =
        min cols cfg.maxCols ∧
      (handleMessage cfg s (ClientMessage.resize cols rows) frame).1.currentRows =
        min rows cfg.maxRows ∧
      ((handleMessage cfg s (ClientMessage.resize cols rows) frame).2.1.all
        fun m => !isError m) = true := by
  have hmsg : handleMessage cfg s (ClientMessage.resize cols rows) frame =
      (((tickAtomic (initializedState cfg s cols rows) frame).1,
        (tickAtomic (initializedState cfg s cols rows) frame).2,
        [RendererCall.createRenderer (min cols cfg.maxCols) (min rows cfg.maxRows),
         RendererCall.setCursorPosition 0 0 false])) := by
    simp [handleMessage, initSession, initializedState, hd, hi]
  rw [hmsg]
  have hp := tickAtomic_preserves (initializedState cfg s cols rows) frame
  refine ⟨?_, ?_, ?_, tickAtomic_no_error _ _⟩
  · rw [hp.1]; rfl
  · rw [hp.2.1]; rfl
  · rw [hp.2.2]; rfl

/-- Witness for `first_resize_clamps_never_rejects`: a first resize of
`(-3) × 500` is accepted as `(-3) × 60`. -/
theorem first_resize_clamps_never_rejects_witness :
    initialState.destroyed = false ∧ initialState.initialized = false ∧
      (handleMessage defaultConfig initialState (ClientMessage.resize (-3) 500)
          emptyFrame).1.initialized = true ∧
      (handleMessage defaultConfig initialState (ClientMessage.resize (-3) 500)
          emptyFrame).1.currentCols = min (-3) defaultConfig.maxCols ∧
      (handleMessage defaultConfig initialState (ClientMessage.resize (-3) 500)
          emptyFrame).1.currentRows = min 500 defaultConfig.maxRows :=
  ⟨rfl, rfl,
    (first_resize_clamps_never_rejects defaultConfig initialState (-3) 500 emptyFrame
      rfl rfl).1,
    (first_resize_clamps_never_rejects defaultConfig initialState (-3) 500 emptyFrame
      rfl rfl).2.1,
    (first_resize_clamps_never_rejects defaultConfig initialState (-3) 500 emptyFrame
      rfl rfl).2.2.1⟩

/-! ### Claim C8: pre-ready message FIFO (multiplexer websocket handler) -/

/-- The per-connection `ws.data` of the multiplexer websocket handler.  An
empty `sessionId` models the `""` sentinel meaning "session not ready yet". -/
structure ConnState where
  sessionId : String
  tunnelId : String
  pendingMessages : List String
deriving DecidableEq, Repr

/-- An inbound websocket frame after `JSON.parse`: a `{id, data}` envelope, a
`{id, event}` envelope, or a frame that failed to parse. -/
inductive Incoming where
  | dataMsg (id : String) (data : String)
  | eventMsg (id : String) (event : String)
  | malformed
deriving DecidableEq, Repr

/-- The `websocket.message` handler: drop non-data envelopes and id
mismatches; queue `data` while the session is not ready; otherwise deliver the
payload to the session.  Returns the new state and the payloads delivered. -/
def wsMessage (s : ConnState) (m : Incoming) : ConnState × List String :=
  match m with
  | .malformed => (s, [])
  | .eventMsg _ _ => (s, [])
  | .dataMsg id d =>
    if id ≠ s.tunnelId then (s, [])
    else if s.sessionId = "" then
      ({ s with pendingMessages := s.pendingMessages ++ [d] }, [])
    else (s, [d])

/-- The tail of `websocket.open` once `createSession` resolves: record the
session id, replay every pending message in order, clear the queue. -/
def wsOpenComplete (s : ConnState) (sid : String) : ConnState × List String :=
  ({ s with sessionId := sid, pendingMessages := [] }, s.pendingMessages)

/-- Connection state after processing a list of inbound frames pre-ready. -/
def wsRunPending (s : ConnState) (ms : List Incoming) : ConnState :=
  ms.foldl (fun st m => (wsMessage st m).1) s

/-- The payload a frame contributes to the queue: its `data` when it is a
data envelope whose id matches the tunnel id. -/
def matchedPayload (tid : String) : Incoming → Option String
  | .dataMsg id d => if id = tid then some d else none
  | _ => none

theorem wsRunPending_spec (ms : List Incoming) :
    ∀ s : ConnState, s.sessionId = "" →
      (wsRunPending s ms).pendingMessages =
          s.pendingMessages ++ ms.filterMap (matchedPayload s.tunnelId) ∧
        (wsRunPending s ms).sessionId = "" ∧
        (wsRunPending s ms).tunnelId = s.tunnelId := by
  induction ms with
  | nil => intro s h; simp [wsRunPending, h]
  | cons m rest ih =>
    intro s h
    cases m with
    | malformed =>
      have := ih s h
      simpa [wsRunPending, wsMessage, matchedPayload] using this
    | eventMsg id ev =>
      have := ih s h
      simpa [wsRunPending, wsMessage, matchedPayload] using this
    | dataMsg id d =>
      by_cases hid : id = s.tunnelId
      · have hstep : (wsMessage s (.dataMsg id d)).1 =
            { s with pendingMessages := s.pendingMessages ++ [d] } := by
          simp [wsMessage, hid, h]
        have hrec := ih { s with pendingMessages := s.pendingMessages ++ [d] } h
        refine ⟨?_, ?_, ?_⟩
        · rw [show wsRunPending s (.dataMsg id d :: rest) =
              wsRunPending { s with pendingMessages := s.pendingMessages ++ [d] } rest by
            simp [wsRunPending, hstep]]
          rw [hrec.1]
          simp [matchedPayload, hid]
        · rw [show wsRunPending s (.dataMsg id d :: rest) =
              wsRunPending { s with pendingMessages := s.pendingMessages ++ [d] } rest by
            simp [wsRunPending, hstep]]
          exact hrec.2.1
        · rw [show wsRunPending s (.dataMsg id d :: rest) =
              wsRunPending { s with pendingMessages := s.pendingMessages ++ [d] } rest by
            simp [wsRunPending, hstep]]
          exact hrec.2.2
      · have hstep : (wsMessage s (.dataMsg id d)).1 = s := by
          simp [wsMessage, hid]
        have hrec := ih s h
        rw [show wsRunPending s (.dataMsg id d :: rest) = wsRunPending s rest by
          simp [wsRunPending, hstep]]
        refine ⟨?_, hrec.2.1, hrec.2.2⟩
        rw [hrec.1]
        simp [matchedPayload, hid]

/-- C8 (counterexample): the pre-ready queue has no cap and never drops — for
any claimed bound there is a message sequence whose queue exceeds it, so the
queue is not "bounded by a cap with overflow dropping the oldest". -/
theorem pending_queue_unbounded :
    ¬ ∃ cap : Nat, ∀ ms : List Incoming,
        (wsRunPending ⟨"", "t", []⟩ ms).pendingMessages.length ≤ cap := by
  rintro ⟨cap, H⟩
  have h := H (List.replicate (cap + 1) (.dataMsg "t" "m"))
  have hspec := (wsRunPending_spec (List.replicate (cap + 1) (.dataMsg "t" "m"))
    ⟨"", "t", []⟩ rfl).1
  rw [hspec] at h
  simp [matchedPayload, List.filterMap_replicate] at h

/-- C8 (amended): every pre-ready matching data message is appended to an
unbounded per-connection FIFO in arrival order (nothing is dropped), and when
the session becomes ready the whole queue is replayed in that order and
cleared, before any later message is processed. -/
theorem pending_fifo_order (s : ConnState) (ms : List Incoming) (sid : String)
    (h : s.sessionId = "") :
    (wsRunPending s ms).pendingMessages =
        s.pendingMessages ++ ms.filterMap (matchedPayload s.tunnelId) ∧
      (wsOpenComplete (wsRunPending s ms) sid).2 =
        s.pendingMessages ++ ms.filterMap (matchedPayload s.tunnelId) ∧
      (wsOpenComplete (wsRunPending s ms) sid).1.pendingMessages = [] := by
  have hspec := wsRunPending_spec ms s h
  exact ⟨hspec.1, by simpa [wsOpenComplete] using hspec.1, by simp [wsOpenComplete]⟩

/-- Witness for `pending_fifo_order`: two matching messages (and one mismatched
one) queue in order and are replayed in order. -/
theorem pending_fifo_order_witness :
    (⟨"", "t", []⟩ : ConnState).sessionId = "" ∧
      (wsRunPending ⟨"", "t", []⟩
          [.dataMsg "t" "a", .dataMsg "u" "x", .dataMsg "t" "b"]).pendingMessages =
        [] ++ [Incoming.dataMsg "t" "a", .dataMsg "u" "x", .dataMsg "t" "b"].filterMap
          (matchedPayload "t") ∧
      (wsOpenComplete (wsRunPending ⟨"", "t", []⟩
          [.dataMsg "t" "a", .dataMsg "u" "x", .dataMsg "t" "b"]) "sid").2 =
        [] ++ [Incoming.dataMsg "t" "a", .dataMsg "u" "x", .dataMsg "t" "b"].filterMap
          (matchedPayload "t") :=
  ⟨rfl,
    (pending_fifo_order ⟨"", "t", []⟩ _ "sid" rfl).1,
    (pending_fifo_order ⟨"", "t", []⟩ _ "sid" rfl).2.1⟩

/-! ### Claim C9: browser multiplexer routing (`client/multiplexer.ts`) -/

/-- Listener sets of a `MultiplexerConnection`: the global `listeners` set and
the `idListeners` map, with JS `Set`/`Map` iteration order made explicit and
listeners named by numbers. -/
structure MuxState where
  listeners : List Nat
  idListeners : List (String × List Nat)
deriving DecidableEq, Repr

/-- Events fanned out to listeners (`MultiplexerEvent`). -/
inductive MuxEvent where
  | data (id : String) (payload : String)
  | upstreamClosed (id : String)
  | upstreamConnected (id : String)
  | upstreamDiscovered (id : String)
  | upstreamError (id : String)
  | muxConnected
  | muxDisconnected
deriving DecidableEq, Repr

/-- The `"id" in event` test: the envelope id, when the event has one. -/
def eventId : MuxEvent → Option String
  | .data id _ => some id
  | .upstreamClosed id => some id
  | .upstreamConnected id => some id
  | .upstreamDiscovered id => some id
  | .upstreamError id => some id
  | .muxConnected => none
  | .muxDisconnected => none

/-- `Map.get`: first entry with the key. -/
def lookupId (m : List (String × List Nat)) (id : String) : Option (List Nat) :=
  (m.find? fun p => p.1 = id).map (·.2)

/-- `emit`: every global listener, then — when the event has an id — every
listener registered for that id. -/
def emit (st : MuxState) (e : MuxEvent) : List (Nat × MuxEvent) :=
  (st.listeners.map fun l => (l, e)) ++
    match eventId e with
    | some id =>
      match lookupId st.idListeners id with
      | some ls => ls.map fun l => (l, e)
      | none => []
    | none => []

/-- `Set.add`: append unless already present. -/
def setAdd (s : List Nat) (l : Nat) : List Nat :=
  if l ∈ s then s else s ++ [l]

/-- `Map.set` for an existing key: replace that key's value. -/
def mapSet (m : List (String × List Nat)) (id : String) (v : List Nat) :
    List (String × List Nat) :=
  m.map fun p => if p.1 = id then (id, v) else p

/-- `Map.delete`. -/
def mapDelete (m : List (String × List Nat)) (id : String) :
    List (String × List Nat) :=
  m.filter fun p => p.1 ≠ id

/-- `subscribe`. -/
def subscribe (st : MuxState) (l : Nat) : MuxState :=
  { st with listeners := setAdd st.listeners l }

/-- The closure `subscribe` returns: `listeners.delete(listener)`. -/
def unsubscribe (st : MuxState) (l : Nat) : MuxState :=
  { st with listeners := st.listeners.erase l }

/-- `subscribeToId`: create the id's set on demand, then add. -/
def subscribeToId (st : MuxState) (id : String) (l : Nat) : MuxState :=
  match lookupId st.idListeners id with
  | none => { st with idListeners := st.idListeners ++ [(id, [l])] }
  | some ls => { st with idListeners := mapSet st.idListeners id (setAdd ls l) }

/-- The closure `subscribeToId` returns: delete the listener from the id's
set, and drop the id entry when the set becomes empty. -/
def unsubscribeFromId (st : MuxState) (id : String) (l : Nat) : MuxState :=
  match lookupId st.idListeners id with
  | none => st
  | some ls =>
    let ls2 := ls.erase l
    if ls2.length = 0 then { st with idListeners := mapDelete st.idListeners id }
    else { st with idListeners := mapSet st.idListeners id ls2 }

theorem lookupId_mapDelete_self (m : List (String × List Nat)) (id : String) :
    lookupId (mapDelete m id) id = none := by
  unfold lookupId mapDelete
  rw [List.find?_eq_none.2]
  · rfl
  · intro p hp
    have := List.of_mem_filter hp
    simpa using this

theorem lookupId_mapSet_self (m : List (String × List Nat)) (id : String)
    (v : List Nat) (h : (lookupId m id).isSome) :
    lookupId (mapSet m id v) id = some v := by
  induction m with
  | nil => simp [lookupId] at h
  | cons p rest ih =>
    by_cases hp : p.1 = id
    · simp [lookupId, mapSet, List.find?_cons, hp]
    · have h' : (lookupId rest id).isSome := by
        simpa [lookupId, List.find?_cons, hp] using h
      have := ih h'
      simpa [lookupId, mapSet, List.find?_cons, hp] using this

theorem mapSet_mapSet (m : List (String × List Nat)) (id : String) (v : List Nat) :
    mapSet (mapSet m id v) id v = mapSet m id v := by
  induction m with
  | nil => rfl
  | cons p rest ih =>
    by_cases hp : p.1 = id
    · simpa [mapSet, hp] using ih
    · simpa [mapSet, hp] using ih

theorem lookupId_entry_mem (m : List (String × List Nat)) (id : String)
    (ls : List Nat) (h : lookupId m id = some ls) : (id, ls) ∈ m := by
  unfold lookupId at h
  cases hf : m.find? (fun p => p.1 = id) with
  | none => rw [hf] at h; exact Option.noConfusion h
  | some p =>
    rw [hf] at h
    have hmem := List.mem_of_find?_eq_some hf
    have hpred := List.find?_some hf
    have hid : p.1 = id := by simpa using hpred
    have hv : p.2 = ls := by simpa using h
    have : p = (id, ls) := by
      cases p; simp_all
    rwa [this] at hmem

/-- C9: multiplexer fan-out and subscription handles.  (1) Every global
listener receives every emitted event.  (2) A listener registered only under
id `id0` (not global, and under no other id) receives exactly the events whose
envelope id is `id0` — in particular no connection-level event without an id.
(3) The unsubscribe handles returned by `subscribe` and `subscribeToId` are
idempotent: running one twice leaves the same state as running it once. -/
theorem multiplexer_routing (st : MuxState) (e : MuxEvent) (l : Nat) (id0 : String)
    (hgnd : st.listeners.Nodup)
    (hvnd : ∀ p ∈ st.idListeners, p.2.Nodup) :
    (∀ g ∈ st.listeners, (g, e) ∈ emit st e) ∧
      (l ∉ st.listeners →
        (∀ p ∈ st.idListeners, l ∈ p.2 → p.1 = id0) →
        (∃ ls, lookupId st.idListeners id0 = some ls ∧ l ∈ ls) →
        ((l, e) ∈ emit st e ↔ eventId e = some id0)) ∧
      unsubscribe (unsubscribe st l) l = unsubscribe st l ∧
      unsubscribeFromId (unsubscribeFromId st id0 l) id0 l =
        unsubscribeFromId st id0 l := by
  refine ⟨?_, ?_, ?_, ?_⟩
  · intro g hg
    exact List.mem_append_left _ (List.mem_map.2 ⟨g, hg, rfl⟩)
  · intro hglob honly hsub
    constructor
    · intro hmem
      rcases List.mem_append.1 hmem with hm | hm
      · rcases List.mem_map.1 hm with ⟨g, hg, heq⟩
        cases heq
        exact absurd hg hglob
      · cases heid : eventId e with
        | none => simp only [heid] at hm; exact absurd hm (List.not_mem_nil _)
        | some id =>
          simp only [heid] at hm
          cases hlk : lookupId st.idListeners id with
          | none => simp only [hlk] at hm; exact absurd hm (List.not_mem_nil _)
          | some ls =>
            simp only [hlk] at hm
            rcases List.mem_map.1 hm with ⟨g, hg, heq⟩
            cases heq
            have hentry := lookupId_entry_mem _ _ _ hlk
            have := honly (id, ls) hentry hg
            exact congrArg some this
    · intro heid
      rcases hsub with ⟨ls, hlk, hls⟩
      refine List.mem_append_right _ ?_
      simp only [heid, hlk]
      exact List.mem_map.2 ⟨l, hls, rfl⟩
  · have hnm : l ∉ st.listeners.erase l := fun hmem =>
      ((List.Nodup.mem_erase_iff hgnd).1 hmem).1 rfl
    unfold unsubscribe
    rw [List.erase_of_not_mem hnm]
  · unfold unsubscribeFromId
    cases hlk : lookupId st.idListeners id0 with
    | none => simp [hlk]
    | some ls =>
      have hnodup : ls.Nodup := hvnd (id0, ls) (lookupId_entry_mem _ _ _ hlk)
      by_cases hlen : (ls.erase l).length = 0
      · simp only [hlk, hlen, if_true]
        simp [lookupId_mapDelete_self]
      · simp only [hlk, hlen, if_false]
        have hlk2 : lookupId (mapSet st.idListeners id0 (ls.erase l)) id0 =
            some (ls.erase l) :=
          lookupId_mapSet_self _ _ _ (by simp [hlk])
        simp only [hlk2]
        have hnm : l ∉ ls.erase l := fun hmem =>
          ((List.Nodup.mem_erase_iff hnodup).1 hmem).1 rfl
        rw [List.erase_of_not_mem hnm]
        simp [hlen, mapSet_mapSet]

/-- Witness for `multiplexer_routing`: one global listener `1` and a per-id
listener `2` under `"A"`; a data envelope for `"A"` reaches both. -/
theorem multiplexer_routing_witness :
    (⟨[1], [("A", [2])]⟩ : MuxState).listeners.Nodup ∧
      (1, MuxEvent.data "A" "p") ∈
        emit ⟨[1], [("A", [2])]⟩ (MuxEvent.data "A" "p") ∧
      ((2, MuxEvent.data "A" "p") ∈
          emit ⟨[1], [("A", [2])]⟩ (MuxEvent.data "A" "p") ↔
        eventId (MuxEvent.data "A" "p") = some "A") := by
  have h := multiplexer_routing ⟨[1], [("A", [2])]⟩ (MuxEvent.data "A" "p") 2 "A"
    (by decide) (by intro p hp; fin_cases hp; decide)
  refine ⟨by decide, h.1 1 (by decide), ?_⟩
  exact h.2.1 (by decide) (by intro p hp; fin_cases hp; decide)
    ⟨[2], by decide, by decide⟩

end Opentui
